import Mathlib

/-!
Verification of the inglorious_crypto streaming pipeline against its
natural-language specification.

The development shallowly embeds the persistence stage
(`src/consumer/src/main.rs`): the ILP line encoder `to_ilp_line`, the
header accessor `header_str`, and the per-message consume loop body
(payload check, e2e latency, JSON decode, sink write with single
reconnect-retry, asynchronous offset commit, throttled lag sampling).
Machine integers are embedded as `Int` with explicit twos-complement
wrapping where the source widens or could overflow; fallible calls
(sink writes, reconnects, watermark queries, JSON decoding) are
embedded as oracle parameters recording the outcome of each call the
source makes.  The observable behaviour of one loop iteration is a
list of `Event`s, mirroring the side effects the source performs in
order.

The ingestion and normalization stages of the three-stage design are
not present in the source tree (only the superseded single-file
variants are); where a claim depends on them they are modelled from
the spec, and such definitions say so in their doc comments.
-/

namespace IngloriousCrypto

/-- An `f64` value as it occurs in the persistence encoder: the source
only ever passes `price`/`qty` to `Display` (`format!`), so the
embedding represents an `f64` field by its `Display` rendering. -/
structure F64 where
  repr : String
deriving DecidableEq

/-- Structure `NormTrade` from `consumer/main.rs` (the spec's NormalizedTick).
`i64` fields are embedded as `Int`; range facts are hypotheses where
they matter. -/
structure NormTrade where
  ts_ms : Int
  symbol : String
  price : F64
  qty : F64
  trade_id : Int
  is_bm : Bool
deriving DecidableEq

/-- Decimal digit character, as Rust's integer formatting emits it. -/
def digitChar10 (d : Nat) : Char :=
  match d with
  | 0 => '0' | 1 => '1' | 2 => '2' | 3 => '3' | 4 => '4'
  | 5 => '5' | 6 => '6' | 7 => '7' | 8 => '8' | _ => '9'

/-- Fuelled decimal rendering of a natural number (most significant
digit first).  The fuel argument makes the recursion structural, so
terms reduce inside the kernel. -/
def natDigitsAux : Nat → Nat → List Char
  | 0, _ => []
  | fuel + 1, n =>
    if n < 10 then [digitChar10 n]
    else natDigitsAux fuel (n / 10) ++ [digitChar10 (n % 10)]

/-- Decimal digits of a natural number. -/
def natDigits (n : Nat) : List Char := natDigitsAux (n + 1) n

/-- Embedding of Rust's `Display` for `i64` (plain decimal, `-` sign
for negatives, no padding or separators). -/
def i64Display (i : Int) : String :=
  if i < 0 then "-" ++ String.mk (natDigits (-i).toNat)
  else String.mk (natDigits i.toNat)

/-- Embedding of Rust's `Display` for `bool`: literal `true`/`false`. -/
def boolStr (b : Bool) : String := if b then "true" else "false"

/-- Embedding of `msg_id.replace('\"', "\\\"")` at the character-list
level: each double-quote is replaced by a backslash followed by a
double-quote; every other character is kept. -/
def escapeQuotes : List Char → List Char
  | [] => []
  | c :: cs => if c = '"' then '\\' :: '"' :: escapeQuotes cs else c :: escapeQuotes cs

/-- Embedding of `msg_id.replace('\"', "\\\"")` on strings. -/
def ilpEscape (s : String) : String := String.mk (escapeQuotes s.data)

/-- Twos-complement wrap into the `i128` range, the release-mode
semantics of `i128` arithmetic in Rust. -/
def wrap128 (z : Int) : Int :=
  (z + 170141183460469231731687303715884105728) %
      340282366920938463463374607431768211456 -
    170141183460469231731687303715884105728

/-- Twos-complement wrap into the `i64` range, the release-mode
semantics of `i64` arithmetic in Rust. -/
def wrap64 (z : Int) : Int :=
  (z + 9223372036854775808) % 18446744073709551616 - 9223372036854775808

/-- The trailing timestamp of an ILP line:
`(t.ts_ms as i128) * 1_000_000i128` from `to_ilp_line`. -/
def tsNanos (ts_ms : Int) : Int := wrap128 (ts_ms * 1000000)

/-- Function `to_ilp_line` from `consumer/main.rs`: the `format!` call laid out
as explicit concatenation, one segment per literal chunk or argument. -/
def to_ilp_line (t : NormTrade) (msg_id : String) : String :=
  "trades,symbol=" ++ t.symbol ++ " price=" ++ t.price.repr ++ ",qty=" ++ t.qty.repr ++
    ",trade_id=" ++ i64Display t.trade_id ++ "i,is_bm=" ++ boolStr t.is_bm ++
    ",msg_id=\"" ++ ilpEscape msg_id ++ "\",ts_ms=" ++ i64Display t.ts_ms ++ "i " ++
    i64Display (tsNanos t.ts_ms)

/-- The write payload built by the consume loop: the bytes handed to
the sink are the ILP line terminated by one newline. -/
def writtenPayload (t : NormTrade) (msg_id : String) : String :=
  to_ilp_line t msg_id ++ "\n"

/-- Numeric value of an ASCII decimal digit, `none` otherwise. -/
def digitVal (c : Char) : Option Nat :=
  if 48 ≤ c.toNat ∧ c.toNat ≤ 57 then some (c.toNat - 48) else none

/-- Value of a nonempty all-digit character run, `none` otherwise. -/
def parseNatDigits (cs : List Char) : Option Nat :=
  match cs with
  | [] => none
  | _ =>
    cs.foldl
      (fun acc c =>
        match acc, digitVal c with
        | some a, some d => some (10 * a + d)
        | _, _ => none)
      (some 0)

/-- Embedding of `s.parse::<i64>()`: an optional single sign, then at
least one ASCII digit, and the value must lie in the `i64` range. -/
def parseI64 (s : String) : Option Int :=
  let signed : Bool × List Char :=
    match s.data with
    | '-' :: rest => (true, rest)
    | '+' :: rest => (false, rest)
    | cs => (false, cs)
  match parseNatDigits signed.2 with
  | none => none
  | some n =>
    let v : Int := if signed.1 then -(n : Int) else (n : Int)
    if -9223372036854775808 ≤ v ∧ v ≤ 9223372036854775807 then some v else none

/-- A Kafka message header as the persistence stage sees it.  The raw
bytes of a value are embedded by the result of the only operation the
source applies to them, `std::str::from_utf8(..).ok()`: `value = none`
models a null header value, `value = some none` models bytes that are
not valid UTF-8, and `value = some (some s)` models the UTF-8 text `s`. -/
structure KHeader where
  key : String
  value : Option (Option String)
deriving DecidableEq

/-- A consumed Kafka message.  `payload` embeds
`msg.payload_view::<str>()`: `none` is a missing payload, `some none`
a payload that is not valid UTF-8, `some (some s)` the text `s`.
`headers = none` models a message without a header section. -/
structure KMessage where
  payload : Option (Option String)
  headers : Option (List KHeader)
  offset : Int
deriving DecidableEq

/-- Function `header_str` from `consumer/main.rs`: find the first header with
the given key and return its value decoded as UTF-8, if any. -/
def header_str (headers : Option (List KHeader)) (key : String) : Option String :=
  (headers.bind (fun hs => hs.find? (fun h => h.key == key))).bind
    (fun h => h.value.bind id)

/-- One observable side effect of a loop iteration of the persistence
stage (or, for the spec-modelled part, the normalization stage), in
program order. -/
inductive Event
  | IncCounter (name : String)
  | RecordE2e (ns : Int)
  | SinkWrite (data : String) (ok : Bool)
  | Reconnect (ok : Bool)
  | CommitAsync
  | FetchWatermarks (timeoutMs : Nat)
  | LagGaugeSet (atMonoNs : Int) (value : Int)
  | PublishNorm (ok : Bool)
deriving DecidableEq

/-- Outcomes of the sink calls the loop body may make for one message:
the first `write_all`, the single `ilp_connect` retry, and the
`write_all` after reconnecting. -/
structure SinkOracle where
  firstWrite : Bool
  reconnect : Bool
  retryWrite : Bool
deriving DecidableEq

/-- The per-message body of the persistence consume loop
(`consumer/main.rs`, payload check through offset commit), as the list
of side effects it performs plus a flag telling whether the iteration
ran to completion (`true`) or abandoned the message via `continue`
(`false`).  `decode` embeds `serde_json::from_str::<NormTrade>`.  The
e2e difference `now_ns - ts_produce_ns` is an `i64` subtraction in the
source and so carries the release-mode `wrap64` semantics. -/
def processMessage (decode : String → Option NormTrade) (nowNs : Int)
    (sink : SinkOracle) (m : KMessage) : List Event × Bool :=
  match m.payload with
  | none => ([], false)
  | some none => ([], false)
  | some (some payload) =>
    let ts_produce_ns := ((header_str m.headers "ts_produce_ns").bind parseI64).getD nowNs
    let evs := [Event.IncCounter "consumed_total",
      Event.RecordE2e (wrap64 (nowNs - ts_produce_ns))]
    match decode payload with
    | none => (evs, false)
    | some t =>
      let msg_id := (header_str m.headers "msg_id").getD ""
      let data := writtenPayload t msg_id
      let evs := evs ++ [Event.SinkWrite data sink.firstWrite]
      if sink.firstWrite then (evs ++ [Event.CommitAsync], true)
      else
        let evs := evs ++ [Event.Reconnect sink.reconnect]
        if sink.reconnect then
          let evs := evs ++ [Event.SinkWrite data sink.retryWrite]
          if sink.retryWrite then (evs ++ [Event.CommitAsync], true) else (evs, false)
        else (evs, false)

/-- The expression `(high - (pos + 1)).max(0)` from the lag block, with `i64`
wrapping on the two arithmetic operations. -/
def computeLag (high pos : Int) : Int :=
  max (wrap64 (high - wrap64 (pos + 1))) 0

/-- The inputs one iteration of the consume loop draws from the
outside world: the two clocks, the sink call outcomes, the watermark
query outcome (`none` embeds `Err`), and the polled item
(`none` embeds a poll error `Err(e)`). -/
structure IterInput where
  nowNs : Int
  nowMono : Int
  sink : SinkOracle
  watermarks : Option (Int × Int)
  item : Option KMessage
deriving DecidableEq

/-- One full iteration of the persistence consume loop including the
throttled lag block, threading `last_lag_update` (a monotonic-clock
instant in nanoseconds).  Every `continue` path skips the lag block,
as in the source; when at least 5 s elapsed the watermark query is
made with its 2 s timeout, the gauge is set only if the query
succeeds, and `last_lag_update` is reset either way.  The reset reuses
the iteration instant `nowMono`; in the source the fresh
`Instant::now()` taken after the query is no earlier than it, which
can only widen the gaps between gauge updates. -/
def consumerStep (decode : String → Option NormTrade) (inp : IterInput)
    (last : Int) : List Event × Int :=
  match inp.item with
  | none => ([], last)
  | some m =>
    let r := processMessage decode inp.nowNs inp.sink m
    if r.2 then
      if 5000000000 ≤ inp.nowMono - last then
        match inp.watermarks with
        | some hw =>
          (r.1 ++ [Event.FetchWatermarks 2000,
            Event.LagGaugeSet inp.nowMono (computeLag hw.2 m.offset)], inp.nowMono)
        | none => (r.1 ++ [Event.FetchWatermarks 2000], inp.nowMono)
      else (r.1, last)
    else (r.1, last)

/-- The persistence consume loop run over a finite schedule of
iteration inputs, collecting all side effects in order. -/
def runConsumer (decode : String → Option NormTrade) (last : Int) :
    List IterInput → List Event
  | [] => []
  | inp :: rest =>
    let r := consumerStep decode inp last
    r.1 ++ runConsumer decode r.2 rest

/-- Number of `CommitAsync` events in a trace. -/
def countCommit : List Event → Nat
  | [] => 0
  | Event.CommitAsync :: es => countCommit es + 1
  | _ :: es => countCommit es

/-- Number of sink write calls in a trace. -/
def countWrite : List Event → Nat
  | [] => 0
  | Event.SinkWrite _ _ :: es => countWrite es + 1
  | _ :: es => countWrite es

/-- Number of successful sink write calls in a trace. -/
def countOkWrite : List Event → Nat
  | [] => 0
  | Event.SinkWrite _ true :: es => countOkWrite es + 1
  | _ :: es => countOkWrite es

/-- Number of reconnect attempts in a trace. -/
def countReconnect : List Event → Nat
  | [] => 0
  | Event.Reconnect _ :: es => countReconnect es + 1
  | _ :: es => countReconnect es

/-- Number of increments of the named counter in a trace. -/
def countInc (name : String) : List Event → Nat
  | [] => 0
  | Event.IncCounter n :: es => (if n = name then 1 else 0) + countInc name es
  | _ :: es => countInc name es

/-- The data arguments of the sink write calls in a trace, in order. -/
def writeDatas : List Event → List String
  | [] => []
  | Event.SinkWrite d _ :: es => d :: writeDatas es
  | _ :: es => writeDatas es

/-- The value recorded in the e2e latency histogram, if any (the
source records `(now_ns - ts_produce_ns) as f64 / 1e6` milliseconds;
the event carries the wrapped `i64` nanosecond difference before the
unit scaling). -/
def e2eRecorded : List Event → Option Int
  | [] => none
  | Event.RecordE2e v :: _ => some v
  | _ :: es => e2eRecorded es

/-- Monotonic-clock instants at which the lag gauge was set. -/
def gaugeTimes (evs : List Event) : List Int :=
  evs.filterMap fun e =>
    match e with
    | Event.LagGaugeSet t _ => some t
    | _ => none

/-- Values published to the lag gauge, in order. -/
def gaugeValues (evs : List Event) : List Int :=
  evs.filterMap fun e =>
    match e with
    | Event.LagGaugeSet _ v => some v
    | _ => none

/-- Timeouts passed to the watermark queries, in order. -/
def fetchTimeouts (evs : List Event) : List Nat :=
  evs.filterMap fun e =>
    match e with
    | Event.FetchWatermarks ms => some ms
    | _ => none

/-- The claim's escaping rule, written the way the spec words it: the
`msg_id` value has each embedded double-quote escaped as a backslash
followed by a double-quote, all other characters verbatim. -/
def specEscape (s : String) : String :=
  String.mk (s.data.flatMap fun c => if c = '"' then ['\\', '"'] else [c])

/-- The persisted line the way the spec's grammar describes it:
`trades,symbol=.. price=..,qty=..,trade_id=..i,is_bm=..,msg_id=".."`
then `,ts_ms=..i` and a space followed by `ts_ms * 1_000_000`, with
booleans rendered as literal `true`/`false`, the two integer fields
carrying an `i` suffix, floats carrying none, and the `msg_id` value
escaped per `specEscape`. -/
def specSinkLine (t : NormTrade) (msg_id : String) : String :=
  "trades,symbol=" ++ t.symbol ++ " price=" ++ t.price.repr ++ ",qty=" ++ t.qty.repr ++
    ",trade_id=" ++ i64Display t.trade_id ++ "i,is_bm=" ++ boolStr t.is_bm ++
    ",msg_id=\"" ++ specEscape msg_id ++ "\",ts_ms=" ++ i64Display t.ts_ms ++ "i " ++
    i64Display (t.ts_ms * 1000000)

/-- A character that keeps a payload a single ASCII line: ASCII and
not a newline. -/
def asciiSafe (c : Char) : Bool := c.toNat ≤ 127 && !(c == '\n')

/-- The claim's notion of "exactly one ASCII line terminated by a
single newline": exactly one newline character, sitting at the end,
and every character ASCII. -/
def isSingleAsciiLine (s : String) : Prop :=
  s.data.count '\n' = 1 ∧ s.data.getLast? = some '\n' ∧ ∀ c ∈ s.data, c.toNat ≤ 127

/-- Structure `RawTick` as the spec's data model states it (the payload decoded
by the normalization stage). -/
structure RawTick where
  symbol : String
  trade_id : Int
  price : String
  qty : String
  trade_time_ms : Int
  is_market_maker : Bool
deriving DecidableEq

/-- Modelled from the spec: the per-message handling of the
Normalization stage (spec section 4.2), whose source file is not under
`src/` (only the superseded single-file variants are present).  Steps:
increment the consumed counter; skip messages with no or non-text
payload; decode the payload as `RawTick`, on failure incrementing the
dropped counter and abandoning the message; on success publish the
normalized tick to the norm topic (`publishOk` embeds the outcome) and
commit the consumed offset asynchronously, abandoning before the
commit step if the publish failed. -/
def normProcessMessage (decodeRaw : String → Option RawTick) (publishOk : Bool)
    (m : KMessage) : List Event × Bool :=
  match m.payload with
  | none => ([Event.IncCounter "consumed_total"], false)
  | some none => ([Event.IncCounter "consumed_total"], false)
  | some (some p) =>
    match decodeRaw p with
    | none =>
      ([Event.IncCounter "consumed_total", Event.IncCounter "dropped_total"], false)
    | some _ =>
      if publishOk then
        ([Event.IncCounter "consumed_total", Event.PublishNorm true,
          Event.CommitAsync], true)
      else
        ([Event.IncCounter "consumed_total", Event.PublishNorm false], false)

/-- A transport header attached to a published message, key and text
value. -/
structure ProducedHeader where
  key : String
  value : String
deriving DecidableEq

/-- A record published to the durable log. -/
structure ProducedRecord where
  topic : String
  key : String
  headers : List ProducedHeader
  payload : String
deriving DecidableEq

/-- An inbound frame from the external feed. -/
inductive Frame
  | text (s : String)
  | binary
  | other
deriving DecidableEq

/-- First value for a header key on a published record. -/
def headerLookup (hs : List ProducedHeader) (key : String) : Option String :=
  (hs.find? (fun h => h.key == key)).map (fun h => h.value)

/-- Modelled from the spec: the Ingestion stage's handling of one
inbound frame (spec sections 4.1 and 6), whose three-stage source file
is not under `src/` (only the superseded fetch-plus-publish variant is
present).  A text frame is published to the raw topic keyed by the
configured symbol, with the freshly generated `msg_id` and the current
wall-clock nanoseconds (as a decimal string) attached as the transport
headers `msg_id` and `ts_produce_ns`; non-text frames are discarded
without effect. -/
def ingestFrame (rawTopic symbol freshId : String) (nowNs : Int) (f : Frame) :
    Option ProducedRecord :=
  match f with
  | Frame.text s =>
    some
      { topic := rawTopic
        key := symbol
        headers := [⟨"msg_id", freshId⟩, ⟨"ts_produce_ns", i64Display nowNs⟩]
        payload := s }
  | _ => none

/-! ## Supporting lemmas -/

theorem wrap64_eq (z : Int) (h1 : -9223372036854775808 ≤ z)
    (h2 : z ≤ 9223372036854775807) : wrap64 z = z := by
  unfold wrap64; omega

theorem wrap128_eq (z : Int)
    (h1 : -170141183460469231731687303715884105728 ≤ z)
    (h2 : z ≤ 170141183460469231731687303715884105727) : wrap128 z = z := by
  unfold wrap128; omega

theorem tsNanos_eq (ts : Int) (h1 : -9223372036854775808 ≤ ts)
    (h2 : ts ≤ 9223372036854775807) : tsNanos ts = ts * 1000000 := by
  unfold tsNanos
  exact wrap128_eq _ (by omega) (by omega)

theorem computeLag_eq (high pos : Int) (h1 : 0 ≤ pos)
    (h2 : pos + 1 ≤ 9223372036854775807)
    (h3 : -9223372036854775808 ≤ high - (pos + 1))
    (h4 : high - (pos + 1) ≤ 9223372036854775807) :
    computeLag high pos = max (high - (pos + 1)) 0 := by
  unfold computeLag
  rw [wrap64_eq (pos + 1) (by omega) h2, wrap64_eq _ h3 h4]

theorem digitChar10_safe (d : Nat) : asciiSafe (digitChar10 d) = true := by
  unfold digitChar10; split <;> decide

theorem natDigitsAux_safe : ∀ fuel n : Nat, (natDigitsAux fuel n).all asciiSafe = true := by
  intro fuel
  induction fuel with
  | zero => intro n; rfl
  | succ f ih =>
    intro n
    unfold natDigitsAux
    split
    · simp [digitChar10_safe]
    · simp [List.all_append, ih, digitChar10_safe]

theorem i64Display_safe (i : Int) : (i64Display i).data.all asciiSafe = true := by
  have hd : ∀ n : Nat, (String.mk (natDigits n)).data.all asciiSafe = true :=
    fun n => natDigitsAux_safe (n + 1) n
  unfold i64Display
  split
  · rw [String.data_append, List.all_append]
    have h1 : ("-" : String).data.all asciiSafe = true := by decide
    rw [h1, hd]
    rfl
  · exact hd _

theorem boolStr_safe (b : Bool) : (boolStr b).data.all asciiSafe = true := by
  cases b <;> decide

theorem escapeQuotes_safe : ∀ cs : List Char, cs.all asciiSafe = true →
    (escapeQuotes cs).all asciiSafe = true := by
  intro cs
  induction cs with
  | nil => intro _; rfl
  | cons c cs ih =>
    intro h
    rw [List.all_cons, Bool.and_eq_true] at h
    unfold escapeQuotes
    split
    · rw [List.all_cons, List.all_cons, Bool.and_eq_true, Bool.and_eq_true]
      exact ⟨by decide, by decide, ih h.2⟩
    · rw [List.all_cons, Bool.and_eq_true]
      exact ⟨h.1, ih h.2⟩

theorem escapeQuotes_flatMap : ∀ cs : List Char,
    escapeQuotes cs = cs.flatMap (fun c => if c = '"' then ['\\', '"'] else [c]) := by
  intro cs
  induction cs with
  | nil => rfl
  | cons c cs ih =>
    by_cases hc : c = '"' <;> simp [escapeQuotes, hc, ih]

theorem ilpEscape_eq_spec (s : String) : ilpEscape s = specEscape s := by
  unfold ilpEscape specEscape
  rw [escapeQuotes_flatMap]

theorem count_nl_of_safe {l : List Char} (h : l.all asciiSafe = true) :
    l.count '\n' = 0 := by
  rw [List.count_eq_zero]
  intro hm
  rw [List.all_eq_true] at h
  exact absurd (h _ hm) (by decide)

theorem ascii_of_safe {l : List Char} (h : l.all asciiSafe = true) :
    ∀ c ∈ l, c.toNat ≤ 127 := by
  rw [List.all_eq_true] at h
  intro c hc
  have hs := h c hc
  unfold asciiSafe at hs
  rw [Bool.and_eq_true] at hs
  exact of_decide_eq_true hs.1

theorem to_ilp_line_safe (t : NormTrade) (msg_id : String)
    (hs : t.symbol.data.all asciiSafe = true)
    (hprice : t.price.repr.data.all asciiSafe = true)
    (hqty : t.qty.repr.data.all asciiSafe = true)
    (hm : msg_id.data.all asciiSafe = true) :
    (to_ilp_line t msg_id).data.all asciiSafe = true := by
  unfold to_ilp_line
  simp only [String.data_append, List.all_append, Bool.and_eq_true]
  repeat' apply And.intro
  all_goals
    first
      | exact hs
      | exact hprice
      | exact hqty
      | exact i64Display_safe _
      | exact boolStr_safe _
      | exact escapeQuotes_safe _ hm
      | decide

theorem singleLine_of_safe (t : NormTrade) (msg_id : String)
    (hsafe : (to_ilp_line t msg_id).data.all asciiSafe = true) :
    isSingleAsciiLine (writtenPayload t msg_id) := by
  unfold writtenPayload isSingleAsciiLine
  rw [String.data_append]
  have hnl : ("\n" : String).data = ['\n'] := rfl
  rw [hnl]
  refine ⟨?_, ?_, ?_⟩
  · rw [List.count_append, count_nl_of_safe hsafe]
    rfl
  · exact List.getLast?_concat _
  · intro c hc
    rw [List.mem_append] at hc
    rcases hc with h | h
    · exact ascii_of_safe hsafe c h
    · rw [List.mem_singleton] at h
      subst h
      decide

theorem gaugeTimes_append (a b : List Event) :
    gaugeTimes (a ++ b) = gaugeTimes a ++ gaugeTimes b :=
  List.filterMap_append a b _

theorem gaugeValues_append (a b : List Event) :
    gaugeValues (a ++ b) = gaugeValues a ++ gaugeValues b :=
  List.filterMap_append a b _

theorem fetchTimeouts_append (a b : List Event) :
    fetchTimeouts (a ++ b) = fetchTimeouts a ++ fetchTimeouts b :=
  List.filterMap_append a b _

theorem gaugeValues_processMessage (decode : String → Option NormTrade)
    (nowNs : Int) (sink : SinkOracle) (m : KMessage) :
    gaugeValues (processMessage decode nowNs sink m).1 = [] := by
  rcases m with ⟨pl, hd, off⟩
  rcases pl with _ | (_ | p)
  · rfl
  · rfl
  · cases hdec : decode p
    · simp [processMessage, hdec, gaugeValues]
    · cases hf : sink.firstWrite <;> cases hr : sink.reconnect <;>
        cases hw : sink.retryWrite <;>
        simp [processMessage, hdec, hf, hr, hw, gaugeValues]

theorem gaugeTimes_processMessage (decode : String → Option NormTrade)
    (nowNs : Int) (sink : SinkOracle) (m : KMessage) :
    gaugeTimes (processMessage decode nowNs sink m).1 = [] := by
  rcases m with ⟨pl, hd, off⟩
  rcases pl with _ | (_ | p)
  · rfl
  · rfl
  · cases hdec : decode p
    · simp [processMessage, hdec, gaugeTimes]
    · cases hf : sink.firstWrite <;> cases hr : sink.reconnect <;>
        cases hw : sink.retryWrite <;>
        simp [processMessage, hdec, hf, hr, hw, gaugeTimes]

theorem fetchTimeouts_processMessage (decode : String → Option NormTrade)
    (nowNs : Int) (sink : SinkOracle) (m : KMessage) :
    fetchTimeouts (processMessage decode nowNs sink m).1 = [] := by
  rcases m with ⟨pl, hd, off⟩
  rcases pl with _ | (_ | p)
  · rfl
  · rfl
  · cases hdec : decode p
    · simp [processMessage, hdec, fetchTimeouts]
    · cases hf : sink.firstWrite <;> cases hr : sink.reconnect <;>
        cases hw : sink.retryWrite <;>
        simp [processMessage, hdec, hf, hr, hw, fetchTimeouts]

theorem runConsumer_cons (decode : String → Option NormTrade) (last : Int)
    (inp : IterInput) (rest : List IterInput) :
    runConsumer decode last (inp :: rest) =
      (consumerStep decode inp last).1 ++
        runConsumer decode (consumerStep decode inp last).2 rest := rfl

theorem consumerStep_cases (decode : String → Option NormTrade)
    (inp : IterInput) (last : Int) :
    (∃ evs, consumerStep decode inp last = (evs, last) ∧
        gaugeTimes evs = [] ∧ (fetchTimeouts evs = [] ∨ fetchTimeouts evs = [2000])) ∨
    (last + 5000000000 ≤ inp.nowMono ∧
      ∃ evs, consumerStep decode inp last = (evs, inp.nowMono) ∧
        (gaugeTimes evs = [] ∨ gaugeTimes evs = [inp.nowMono]) ∧
        (fetchTimeouts evs = [] ∨ fetchTimeouts evs = [2000])) := by
  rcases hi : inp.item with _ | m
  · exact Or.inl ⟨[], by simp [consumerStep, hi], rfl, Or.inl rfl⟩
  · cases hc : (processMessage decode inp.nowNs inp.sink m).2
    · refine Or.inl ⟨(processMessage decode inp.nowNs inp.sink m).1, ?_, ?_, ?_⟩
      · simp [consumerStep, hi, hc]
      · exact gaugeTimes_processMessage decode inp.nowNs inp.sink m
      · exact Or.inl (fetchTimeouts_processMessage decode inp.nowNs inp.sink m)
    · by_cases he : 5000000000 ≤ inp.nowMono - last
      · refine Or.inr ⟨by omega, ?_⟩
        rcases hw : inp.watermarks with _ | hwp
        · refine ⟨(processMessage decode inp.nowNs inp.sink m).1 ++
            [Event.FetchWatermarks 2000], ?_, ?_, ?_⟩
          · simp [consumerStep, hi, hc, hw, he]
          · rw [gaugeTimes_append, gaugeTimes_processMessage]
            exact Or.inl rfl
          · rw [fetchTimeouts_append, fetchTimeouts_processMessage]
            exact Or.inr rfl
        · refine ⟨(processMessage decode inp.nowNs inp.sink m).1 ++
            [Event.FetchWatermarks 2000,
              Event.LagGaugeSet inp.nowMono (computeLag hwp.2 m.offset)], ?_, ?_, ?_⟩
          · simp [consumerStep, hi, hc, hw, he]
          · rw [gaugeTimes_append, gaugeTimes_processMessage]
            exact Or.inr rfl
          · rw [fetchTimeouts_append, fetchTimeouts_processMessage]
            exact Or.inr rfl
      · refine Or.inl ⟨(processMessage decode inp.nowNs inp.sink m).1, ?_, ?_, ?_⟩
        · simp [consumerStep, hi, hc, he]
        · exact gaugeTimes_processMessage decode inp.nowNs inp.sink m
        · exact Or.inl (fetchTimeouts_processMessage decode inp.nowNs inp.sink m)

theorem lag_update_lower (decode : String → Option NormTrade) :
    ∀ (inputs : List IterInput) (last t : Int),
      t ∈ gaugeTimes (runConsumer decode last inputs) → last + 5000000000 ≤ t := by
  intro inputs
  induction inputs with
  | nil =>
    intro last t ht
    simp [runConsumer, gaugeTimes] at ht
  | cons inp rest ih =>
    intro last t ht
    rw [runConsumer_cons, gaugeTimes_append, List.mem_append] at ht
    rcases consumerStep_cases decode inp last with
      ⟨evs, hstep, hg, _⟩ | ⟨hle, evs, hstep, hg, _⟩
    · rw [hstep] at ht
      rcases ht with h | h
      · rw [hg] at h
        cases h
      · exact ih last t h
    · rw [hstep] at ht
      rcases ht with h | h
      · rcases hg with hg | hg
        · rw [hg] at h
          cases h
        · rw [hg, List.mem_singleton] at h
          omega
      · have := ih inp.nowMono t h
        omega

theorem lag_throttle_pairwise (decode : String → Option NormTrade) :
    ∀ (inputs : List IterInput) (last : Int),
      List.Pairwise (fun a b => a + 5000000000 ≤ b)
        (gaugeTimes (runConsumer decode last inputs)) := by
  intro inputs
  induction inputs with
  | nil =>
    intro last
    simp [runConsumer, gaugeTimes]
  | cons inp rest ih =>
    intro last
    rw [runConsumer_cons, gaugeTimes_append]
    rcases consumerStep_cases decode inp last with
      ⟨evs, hstep, hg, _⟩ | ⟨hle, evs, hstep, hg, _⟩
    · rw [hstep, hg, List.nil_append]
      exact ih last
    · rw [hstep]
      rcases hg with hg | hg
      · rw [hg, List.nil_append]
        exact ih inp.nowMono
      · rw [hg, List.singleton_append, List.pairwise_cons]
        exact ⟨fun b hb => lag_update_lower decode rest inp.nowMono b hb, ih inp.nowMono⟩

theorem fetch_timeout_all (decode : String → Option NormTrade) :
    ∀ (inputs : List IterInput) (last : Int),
      (fetchTimeouts (runConsumer decode last inputs)).all (fun ms => ms == 2000) = true := by
  intro inputs
  induction inputs with
  | nil =>
    intro last
    rfl
  | cons inp rest ih =>
    intro last
    rw [runConsumer_cons, fetchTimeouts_append, List.all_append, Bool.and_eq_true]
    rcases consumerStep_cases decode inp last with
      ⟨evs, hstep, _, hf⟩ | ⟨_, evs, hstep, _, hf⟩ <;>
      rw [hstep] <;>
      exact ⟨by rcases hf with hf | hf <;> rw [hf] <;> rfl, ih _⟩

theorem msgIdQuoteSplit (X : String) :
    (",msg_id=\"" : String) ++ ("\",ts_ms=" ++ X) =
      "," ++ ("msg_id=\"\"" ++ (",ts_ms=" ++ X)) := by
  rw [← String.append_assoc, ← String.append_assoc, ← String.append_assoc]
  exact congrArg (fun y => y ++ X) (by decide)

/-! ## Claim theorems -/

/-- C1 (amended): for a `NormTrade` whose rendered `symbol`, `price`
and `qty` are newline-free ASCII, and a newline-free ASCII lineage
`msg_id`, with `ts_ms` in the `i64` range, the persistence encoder
produces the line the spec grammar describes (quotes in `msg_id`
escaped as backslash-quote, booleans as literal `true`/`false`, the
two integer fields with an `i` suffix, floats without, trailing
timestamp `ts_ms * 1_000_000`), and the payload written to the sink is
exactly that single ASCII line terminated by a single newline. -/
theorem C1_sink_line (t : NormTrade) (msg_id : String)
    (hs : t.symbol.data.all asciiSafe = true)
    (hprice : t.price.repr.data.all asciiSafe = true)
    (hqty : t.qty.repr.data.all asciiSafe = true)
    (hm : msg_id.data.all asciiSafe = true)
    (h1 : -9223372036854775808 ≤ t.ts_ms)
    (h2 : t.ts_ms ≤ 9223372036854775807) :
    writtenPayload t msg_id = specSinkLine t msg_id ++ "\n" ∧
    isSingleAsciiLine (writtenPayload t msg_id) := by
  constructor
  · unfold writtenPayload to_ilp_line specSinkLine
    rw [ilpEscape_eq_spec, tsNanos_eq _ h1 h2]
  · exact singleLine_of_safe t msg_id (to_ilp_line_safe t msg_id hs hprice hqty hm)

theorem C1_sink_line_witness :
    writtenPayload ⟨1700000000000, "BTCUSDT", ⟨"101.5"⟩, ⟨"0.002"⟩, 42, false⟩ "abc" =
      specSinkLine ⟨1700000000000, "BTCUSDT", ⟨"101.5"⟩, ⟨"0.002"⟩, 42, false⟩ "abc" ++ "\n" ∧
    isSingleAsciiLine
      (writtenPayload ⟨1700000000000, "BTCUSDT", ⟨"101.5"⟩, ⟨"0.002"⟩, 42, false⟩ "abc") :=
  C1_sink_line _ "abc" (by decide) (by decide) (by decide) (by decide)
    (by decide) (by decide)

/-- C1 counterexample: the claim as stated quantifies over every
lineage string, but a lineage string containing a newline (which the
encoder does not escape) makes the written payload two lines, not one
newline-terminated ASCII line. -/
theorem C1_sink_line_cex :
    ¬ isSingleAsciiLine (writtenPayload ⟨1, "S", ⟨"1"⟩, ⟨"1"⟩, 1, false⟩ "a\nb") := by
  unfold isSingleAsciiLine
  decide

/-- C6: for every `i64` value of `ts_ms`, the widening to `i128`
before multiplying by 1,000,000 cannot overflow, so the trailing
nanosecond timestamp field of the persisted line is exactly
`ts_ms * 1_000_000`, and the line ends with that decimal value after
the `i`-suffixed `ts_ms` field and a space. -/
theorem C6_ts_nanos (t : NormTrade) (msg_id : String)
    (h1 : -9223372036854775808 ≤ t.ts_ms)
    (h2 : t.ts_ms ≤ 9223372036854775807) :
    tsNanos t.ts_ms = t.ts_ms * 1000000 ∧
    ∃ u, to_ilp_line t msg_id = u ++ "i " ++ i64Display (t.ts_ms * 1000000) := by
  refine ⟨tsNanos_eq _ h1 h2, ?_⟩
  refine ⟨"trades,symbol=" ++ t.symbol ++ " price=" ++ t.price.repr ++ ",qty=" ++
    t.qty.repr ++ ",trade_id=" ++ i64Display t.trade_id ++ "i,is_bm=" ++
    boolStr t.is_bm ++ ",msg_id=\"" ++ ilpEscape msg_id ++ "\",ts_ms=" ++
    i64Display t.ts_ms, ?_⟩
  unfold to_ilp_line
  rw [tsNanos_eq _ h1 h2]

theorem C6_ts_nanos_witness :
    tsNanos (1700000000000 : Int) = 1700000000000 * 1000000 ∧
    ∃ u, to_ilp_line ⟨1700000000000, "S", ⟨"1"⟩, ⟨"1"⟩, 7, true⟩ "m" =
      u ++ "i " ++ i64Display (1700000000000 * 1000000) :=
  C6_ts_nanos ⟨1700000000000, "S", ⟨"1"⟩, ⟨"1"⟩, 7, true⟩ "m" (by decide) (by decide)

/-- C2: when the first sink write of a decoded message fails, the loop
body reconnects exactly once; it retries the write exactly once when
the reconnect succeeds and not at all when it fails; the message is
abandoned with no commit unless the retry succeeds; on the
fail-then-succeed path exactly one successful write (and one commit)
happens; and every write call carries the same payload. -/
theorem C2_single_retry (decode : String → Option NormTrade) (nowNs : Int)
    (sink : SinkOracle) (m : KMessage) (p : String) (t : NormTrade)
    (hp : m.payload = some (some p)) (hdec : decode p = some t)
    (hf : sink.firstWrite = false) :
    countReconnect (processMessage decode nowNs sink m).1 = 1 ∧
    countWrite (processMessage decode nowNs sink m).1 =
      (if sink.reconnect then 2 else 1) ∧
    countOkWrite (processMessage decode nowNs sink m).1 =
      (if sink.reconnect && sink.retryWrite then 1 else 0) ∧
    countCommit (processMessage decode nowNs sink m).1 =
      (if sink.reconnect && sink.retryWrite then 1 else 0) ∧
    writeDatas (processMessage decode nowNs sink m).1 =
      List.replicate (countWrite (processMessage decode nowNs sink m).1)
        (writtenPayload t ((header_str m.headers "msg_id").getD "")) := by
  cases hr : sink.reconnect <;> cases hw : sink.retryWrite <;>
    simp [processMessage, hp, hdec, hf, hr, hw, countReconnect, countWrite,
      countOkWrite, countCommit, writeDatas, List.replicate]

theorem C2_single_retry_witness :
    countReconnect (processMessage (fun _ => some ⟨5, "S", ⟨"2"⟩, ⟨"3"⟩, 4, true⟩) 0
      ⟨false, true, true⟩ ⟨some (some "x"), none, 0⟩).1 = 1 ∧
    countWrite (processMessage (fun _ => some ⟨5, "S", ⟨"2"⟩, ⟨"3"⟩, 4, true⟩) 0
      ⟨false, true, true⟩ ⟨some (some "x"), none, 0⟩).1 = 2 ∧
    countOkWrite (processMessage (fun _ => some ⟨5, "S", ⟨"2"⟩, ⟨"3"⟩, 4, true⟩) 0
      ⟨false, true, true⟩ ⟨some (some "x"), none, 0⟩).1 = 1 ∧
    countCommit (processMessage (fun _ => some ⟨5, "S", ⟨"2"⟩, ⟨"3"⟩, 4, true⟩) 0
      ⟨false, true, true⟩ ⟨some (some "x"), none, 0⟩).1 = 1 ∧
    writeDatas (processMessage (fun _ => some ⟨5, "S", ⟨"2"⟩, ⟨"3"⟩, 4, true⟩) 0
      ⟨false, true, true⟩ ⟨some (some "x"), none, 0⟩).1 =
      List.replicate 2 (writtenPayload ⟨5, "S", ⟨"2"⟩, ⟨"3"⟩, 4, true⟩ "") := by
  have h := C2_single_retry (fun _ => some ⟨5, "S", ⟨"2"⟩, ⟨"3"⟩, 4, true⟩) 0
    ⟨false, true, true⟩ ⟨some (some "x"), none, 0⟩ "x" ⟨5, "S", ⟨"2"⟩, ⟨"3"⟩, 4, true⟩
    rfl rfl rfl
  simpa using h

/-- C5: in the per-message loop body, an asynchronous offset commit is
issued exactly when a sink write for that message succeeded (on the
first attempt or on the single retry); at most one commit is ever
issued, and none on any abandonment path (poll error, bad payload,
decode failure, reconnect failure, retry failure). -/
theorem C5_commit_iff (decode : String → Option NormTrade) (nowNs : Int)
    (sink : SinkOracle) (m : KMessage) :
    countCommit (processMessage decode nowNs sink m).1 ≤ 1 ∧
    (countCommit (processMessage decode nowNs sink m).1 = 1 ↔
      1 ≤ countOkWrite (processMessage decode nowNs sink m).1) := by
  rcases m with ⟨pl, hd, off⟩
  rcases pl with _ | (_ | p)
  · simp [processMessage, countCommit, countOkWrite]
  · simp [processMessage, countCommit, countOkWrite]
  · cases hdec : decode p
    · simp [processMessage, hdec, countCommit, countOkWrite]
    · cases hf : sink.firstWrite <;> cases hr : sink.reconnect <;>
        cases hw : sink.retryWrite <;>
        simp [processMessage, hdec, hf, hr, hw, countCommit, countOkWrite]

theorem e2e_value (decode : String → Option NormTrade) (nowNs : Int)
    (sink : SinkOracle) (m : KMessage) (p : String)
    (hp : m.payload = some (some p)) :
    e2eRecorded (processMessage decode nowNs sink m).1 =
      some (wrap64
        (nowNs - ((header_str m.headers "ts_produce_ns").bind parseI64).getD nowNs)) := by
  cases hdec : decode p
  · simp [processMessage, hp, hdec, e2eRecorded]
  · cases hf : sink.firstWrite <;> cases hr : sink.reconnect <;>
      cases hw : sink.retryWrite <;>
      simp [processMessage, hp, hdec, hf, hr, hw, e2eRecorded]

/-- C9 counterexample: the claim as stated quantifies over every
header value that parses as an `i64`, but the subtraction
`now_ns - ts_produce_ns` is an `i64` operation that wraps in release
mode; with the header carrying the minimal `i64` value and a realistic
wall clock, the difference overflows and the program records the
wrapped value, not `now_ns - produce_timestamp_ns`. -/
theorem C9_e2e_latency_cex :
    e2eRecorded (processMessage (fun _ => none) 1700000000000000000 ⟨true, true, true⟩
      ⟨some (some "x"),
        some [⟨"ts_produce_ns", some (some "-9223372036854775808")⟩], 0⟩).1 =
      some (-7523372036854775808) ∧
    ¬ e2eRecorded (processMessage (fun _ => none) 1700000000000000000 ⟨true, true, true⟩
      ⟨some (some "x"),
        some [⟨"ts_produce_ns", some (some "-9223372036854775808")⟩], 0⟩).1 =
      some (1700000000000000000 - -9223372036854775808) := by
  constructor <;> decide

/-- C9 (amended): for every consumed message with a text payload, the
value recorded in the e2e latency histogram is the wrapped `i64`
difference; it equals `now_ns - v` nanoseconds whenever the
`ts_produce_ns` header is present, parses as an `i64` value `v`, and
the difference `now_ns - v` itself fits in the `i64` range (as every
realistic clock pair does), and it is exactly zero when the header is
absent (the fallback substitutes `now_ns` for the missing value).
The histogram stores this nanosecond value scaled to milliseconds. -/
theorem C9_e2e_latency (decode : String → Option NormTrade) (nowNs : Int)
    (sink : SinkOracle) (m : KMessage) (p : String)
    (hp : m.payload = some (some p)) :
    (∀ s v, header_str m.headers "ts_produce_ns" = some s → parseI64 s = some v →
      -9223372036854775808 ≤ nowNs - v → nowNs - v ≤ 9223372036854775807 →
      e2eRecorded (processMessage decode nowNs sink m).1 = some (nowNs - v)) ∧
    (header_str m.headers "ts_produce_ns" = none →
      e2eRecorded (processMessage decode nowNs sink m).1 = some 0) := by
  constructor
  · intro s v hs hv h1 h2
    rw [e2e_value decode nowNs sink m p hp, hs]
    simp only [Option.some_bind, hv, Option.getD_some]
    rw [wrap64_eq _ h1 h2]
  · intro hn
    rw [e2e_value decode nowNs sink m p hp, hn]
    simp only [Option.none_bind, Option.getD_none, sub_self]
    rw [wrap64_eq 0 (by decide) (by decide)]

theorem C9_e2e_latency_witness :
    e2eRecorded (processMessage (fun _ => none) 100 ⟨true, true, true⟩
      ⟨some (some "x"), some [⟨"ts_produce_ns", some (some "5")⟩], 0⟩).1 = some 95 := by
  have h := (C9_e2e_latency (fun _ => none) 100 ⟨true, true, true⟩
    ⟨some (some "x"), some [⟨"ts_produce_ns", some (some "5")⟩], 0⟩ "x" rfl).1
    "5" 5 (by decide) (by decide) (by decide) (by decide)
  simpa using h

/-- C10: when the `msg_id` header of a consumed message is absent or
its bytes are not valid UTF-8 (both make `header_str` return `none`),
the loop body encodes the message with the empty string as `msg_id`:
every sink write of that message carries the line encoded with the
empty lineage string — whose text contains the eight characters of
`msg_id=` followed by two adjacent double-quotes — and at least one
write is attempted; no fresh identifier is generated. -/
theorem C10_msg_id_fallback (decode : String → Option NormTrade) (nowNs : Int)
    (sink : SinkOracle) (m : KMessage) (p : String) (t : NormTrade)
    (hp : m.payload = some (some p)) (hdec : decode p = some t)
    (hh : header_str m.headers "msg_id" = none) :
    1 ≤ countWrite (processMessage decode nowNs sink m).1 ∧
    writeDatas (processMessage decode nowNs sink m).1 =
      List.replicate (countWrite (processMessage decode nowNs sink m).1)
        (writtenPayload t "") ∧
    ∃ u v, to_ilp_line t "" = u ++ "msg_id=\"\"" ++ v := by
  refine ⟨?_, ?_, ?_⟩
  · cases hf : sink.firstWrite <;> cases hr : sink.reconnect <;>
      cases hw : sink.retryWrite <;>
      simp [processMessage, hp, hdec, hh, hf, hr, hw, countWrite]
  · cases hf : sink.firstWrite <;> cases hr : sink.reconnect <;>
      cases hw : sink.retryWrite <;>
      simp [processMessage, hp, hdec, hh, hf, hr, hw, countWrite, writeDatas,
        List.replicate]
  · refine ⟨"trades,symbol=" ++ t.symbol ++ " price=" ++ t.price.repr ++ ",qty=" ++
      t.qty.repr ++ ",trade_id=" ++ i64Display t.trade_id ++ "i,is_bm=" ++
      boolStr t.is_bm ++ ",", ",ts_ms=" ++ i64Display t.ts_ms ++ "i " ++
      i64Display (tsNanos t.ts_ms), ?_⟩
    have he : ilpEscape "" = "" := rfl
    unfold to_ilp_line
    rw [he]
    simp only [String.append_assoc, String.append_empty, String.empty_append,
      msgIdQuoteSplit]

theorem C10_msg_id_fallback_witness :
    1 ≤ countWrite (processMessage (fun _ => some ⟨5, "T", ⟨"2"⟩, ⟨"3"⟩, 4, false⟩) 0
      ⟨true, true, true⟩ ⟨some (some "x"), some [⟨"msg_id", some none⟩], 0⟩).1 ∧
    writeDatas (processMessage (fun _ => some ⟨5, "T", ⟨"2"⟩, ⟨"3"⟩, 4, false⟩) 0
      ⟨true, true, true⟩ ⟨some (some "x"), some [⟨"msg_id", some none⟩], 0⟩).1 =
      List.replicate (countWrite (processMessage (fun _ => some ⟨5, "T", ⟨"2"⟩, ⟨"3"⟩, 4, false⟩) 0
        ⟨true, true, true⟩ ⟨some (some "x"), some [⟨"msg_id", some none⟩], 0⟩).1)
        (writtenPayload ⟨5, "T", ⟨"2"⟩, ⟨"3"⟩, 4, false⟩ "") ∧
    ∃ u v, to_ilp_line ⟨5, "T", ⟨"2"⟩, ⟨"3"⟩, 4, false⟩ "" = u ++ "msg_id=\"\"" ++ v :=
  C10_msg_id_fallback (fun _ => some ⟨5, "T", ⟨"2"⟩, ⟨"3"⟩, 4, false⟩) 0
    ⟨true, true, true⟩ ⟨some (some "x"), some [⟨"msg_id", some none⟩], 0⟩ "x"
    ⟨5, "T", ⟨"2"⟩, ⟨"3"⟩, 4, false⟩ rfl rfl (by decide)

/-- C3 counterexample: a malformed JSON payload fed to the persistence
stage (the decode oracle returns `none`, as `serde_json::from_str`
does on the payload `not json`) leaves `dropped_total` unchanged — the
source logs and abandons the message without touching any drop
counter, so the counter does not increase by one as the claim states. -/
theorem C3_dropped_cex :
    countInc "dropped_total" (processMessage (fun _ => none) 0 ⟨true, true, true⟩
      ⟨some (some "not json"), none, 0⟩).1 = 0 ∧
    ¬ countInc "dropped_total" (processMessage (fun _ => none) 0 ⟨true, true, true⟩
      ⟨some (some "not json"), none, 0⟩).1 = 1 := by
  constructor <;> decide

/-- C3 (amended): for every malformed JSON payload, neither stage
terminates — the loop abandons the message and goes on to the rest of
the schedule unchanged — and the dropped counter increases by exactly
one in the normalization stage (modelled from the spec, its source not
being under `src/`) but by zero in the persistence stage, which logs
and abandons without incrementing any counter. -/
theorem C3_malformed_dropped (decode : String → Option NormTrade)
    (decodeRaw : String → Option RawTick) (publishOk : Bool)
    (nowNs nowMono last : Int) (sink : SinkOracle) (wm : Option (Int × Int))
    (m : KMessage) (p : String) (rest : List IterInput)
    (hp : m.payload = some (some p)) (hdec : decode p = none)
    (hdecRaw : decodeRaw p = none) :
    countInc "dropped_total" (processMessage decode nowNs sink m).1 = 0 ∧
    runConsumer decode last (⟨nowNs, nowMono, sink, wm, some m⟩ :: rest) =
      (processMessage decode nowNs sink m).1 ++ runConsumer decode last rest ∧
    countInc "dropped_total" (normProcessMessage decodeRaw publishOk m).1 = 1 := by
  refine ⟨?_, ?_, ?_⟩
  · simp [processMessage, hp, hdec, countInc]
  · rw [runConsumer_cons]
    have hstep : consumerStep decode ⟨nowNs, nowMono, sink, wm, some m⟩ last =
        ((processMessage decode nowNs sink m).1, last) := by
      simp [consumerStep, processMessage, hp, hdec]
    rw [hstep]
  · simp [normProcessMessage, hp, hdecRaw, countInc]

theorem C3_malformed_dropped_witness :
    countInc "dropped_total" (processMessage (fun _ => none) 0 ⟨true, true, true⟩
      ⟨some (some "bad"), none, 0⟩).1 = 0 ∧
    runConsumer (fun _ => none) 0
      (⟨0, 0, ⟨true, true, true⟩, none, some ⟨some (some "bad"), none, 0⟩⟩ :: []) =
      (processMessage (fun _ => none) 0 ⟨true, true, true⟩
        ⟨some (some "bad"), none, 0⟩).1 ++ runConsumer (fun _ => none) 0 [] ∧
    countInc "dropped_total"
      (normProcessMessage (fun _ => none) true ⟨some (some "bad"), none, 0⟩).1 = 1 :=
  C3_malformed_dropped (fun _ => none) (fun _ => none) true 0 0 0
    ⟨true, true, true⟩ none ⟨some (some "bad"), none, 0⟩ "bad" [] rfl rfl rfl

/-- C7: whenever a fully processed message reaches the lag block with
at least five seconds elapsed and the watermark query succeeds, the
single value published to the lag gauge in that iteration is
`max (high_water_mark - (current_offset + 1)) 0` — the difference
floored at zero — provided the `i64` arithmetic does not overflow
(hypotheses give the Kafka ranges of offset and watermark). -/
theorem C7_lag_value (decode : String → Option NormTrade) (inp : IterInput)
    (last : Int) (m : KMessage) (low high : Int)
    (hitem : inp.item = some m)
    (hcomp : (processMessage decode inp.nowNs inp.sink m).2 = true)
    (helap : 5000000000 ≤ inp.nowMono - last)
    (hwm : inp.watermarks = some (low, high))
    (hlo : 0 ≤ m.offset) (hhi : m.offset + 1 ≤ 9223372036854775807)
    (hd1 : -9223372036854775808 ≤ high - (m.offset + 1))
    (hd2 : high - (m.offset + 1) ≤ 9223372036854775807) :
    gaugeValues (consumerStep decode inp last).1 = [max (high - (m.offset + 1)) 0] := by
  have hstep : consumerStep decode inp last =
      ((processMessage decode inp.nowNs inp.sink m).1 ++
        [Event.FetchWatermarks 2000,
          Event.LagGaugeSet inp.nowMono (computeLag high m.offset)], inp.nowMono) := by
    simp [consumerStep, hitem, hcomp, hwm, helap]
  rw [hstep]
  rw [gaugeValues_append, gaugeValues_processMessage]
  rw [computeLag_eq high m.offset hlo hhi hd1 hd2]
  rfl

theorem C7_lag_value_witness :
    gaugeValues (consumerStep (fun _ => some ⟨5, "S", ⟨"2"⟩, ⟨"3"⟩, 4, false⟩)
      ⟨0, 6000000000, ⟨true, true, true⟩, some (0, 10), some ⟨some (some "x"), none, 3⟩⟩
      0).1 = [6] := by
  have h := C7_lag_value (fun _ => some ⟨5, "S", ⟨"2"⟩, ⟨"3"⟩, 4, false⟩)
    ⟨0, 6000000000, ⟨true, true, true⟩, some (0, 10), some ⟨some (some "x"), none, 3⟩⟩
    0 ⟨some (some "x"), none, 3⟩ 0 10 rfl (by decide) (by decide) rfl
    (by decide) (by decide) (by decide) (by decide)
  simpa using h

/-- C8: over any schedule of loop iterations, the monotonic instants
at which the lag gauge is set are pairwise at least five seconds
apart — the code gates the block on `elapsed() >= 5s` and resets the
instant whenever the gate opens — so the gauge is updated at most once
per 5-second wall-clock window regardless of message throughput; and
every watermark query the loop makes carries the 2-second (2000 ms)
timeout. -/
theorem C8_lag_throttle (decode : String → Option NormTrade) (last : Int)
    (inputs : List IterInput) :
    List.Pairwise (fun a b => a + 5000000000 ≤ b)
      (gaugeTimes (runConsumer decode last inputs)) ∧
    (fetchTimeouts (runConsumer decode last inputs)).all (fun ms => ms == 2000) = true :=
  ⟨lag_throttle_pairwise decode inputs last, fetch_timeout_all decode inputs last⟩

/-- C4 (spec-modelled, the three-stage ingestion source not being
under `src/`): every inbound text frame is published to the raw topic,
keyed by the configured symbol, with the freshly generated message id
and the wall-clock nanoseconds (as a decimal string) attached as the
`msg_id` and `ts_produce_ns` transport headers, and the frame text as
the payload. -/
theorem C4_ingest_headers (rawTopic symbol freshId : String) (nowNs : Int)
    (s : String) :
    ∃ r, ingestFrame rawTopic symbol freshId nowNs (Frame.text s) = some r ∧
      r.topic = rawTopic ∧ r.key = symbol ∧
      headerLookup r.headers "msg_id" = some freshId ∧
      headerLookup r.headers "ts_produce_ns" = some (i64Display nowNs) ∧
      r.payload = s := by
  refine ⟨_, rfl, rfl, rfl, ?_, ?_, rfl⟩ <;> rfl

end IngloriousCrypto
